import Mathlib

/-!
Verification development for the chatapp backend (Express + Socket.IO relay).

The definitions below are a shallow embedding of src/index.js (socket event
handlers, the presence structures onlineUsers and userSockets, the room
membership kept by Socket.IO), src/models/Message.js (the message schema) and
src/routes/messages.js (the HTTP message routes).  Opaque identifiers
(Mongo object ids, socket ids, user ids, emoji strings) are modelled as
natural numbers; the durable store is an association list from message id to
message document; emissions are recorded as a list of target/event pairs in
the order the handlers produce them.
-/

namespace Chatapp

/-- Opaque user identifier (JWT userId / Mongo ObjectId). -/
abbrev UserId := Nat

/-- Opaque Socket.IO connection identifier (socket.id). -/
abbrev SocketId := Nat

/-- Opaque room identifier (channel id or canonical DM room id). -/
abbrev RoomId := Nat

/-- Opaque message identifier (Mongo ObjectId of a Message document). -/
abbrev MessageId := Nat

/-- Opaque emoji value used in reactions. -/
abbrev Emoji := Nat

/-- The Message schema enum type: [channel, direct]. -/
inductive MsgType where
  | channel
  | direct
deriving DecidableEq

/-- The Message schema enum messageType: [text, image, file]. -/
inductive MsgKind where
  | text
  | image
  | file
deriving DecidableEq

/-- One entry of the reactions array: emoji plus reacting user
(src/models/Message.js lines 22-25). -/
structure Reaction where
  emoji : Emoji
  user : UserId
deriving DecidableEq

/-- The Message document, following MessageSchema in src/models/Message.js.
content is optional (not required for file/image messages); timestamps are
modelled as Nat. -/
structure Message where
  sender : UserId
  content : Option String := none
  type : MsgType
  messageType : MsgKind := MsgKind.text
  imageUrl : Option String := none
  channel : Option RoomId := none
  recipient : Option UserId := none
  isDeleted : Bool := false
  isEdited : Bool := false
  editedAt : Option Nat := none
  fileUrl : Option String := none
  deliveredTo : List UserId := []
  readBy : List UserId := []
  reactions : List Reaction := []
deriving DecidableEq

/-- The durable store of Message documents, keyed by message id. -/
abbrev Store := List (MessageId × Message)

/-- Message.findById: first entry with the given id. -/
def findMsg : Store → MessageId → Option Message
  | [], _ => none
  | p :: rest, mid => if p.1 = mid then some p.2 else findMsg rest mid

/-- message.save() on an existing document: replace the document stored
under its id. -/
def saveUpdate (store : Store) (mid : MessageId) (m : Message) : Store :=
  store.map (fun p => if p.1 = mid then (mid, m) else p)

/-- messageDoc.save() on a new document: the store grows by one entry whose
id is the fresh id handed out by the store. -/
def saveNew (store : Store) (mid : MessageId) (m : Message) : Store :=
  store ++ [(mid, m)]

/-- Outbound events, following the emission sites in src/index.js. -/
inductive Event where
  | userStatus (userId : UserId) (online : Bool)
  | currentOnline (userIds : List UserId)
  | messageReceived (mid : MessageId)
  | fileMessageEv (mid : MessageId)
  | messageEdited (mid : MessageId)
  | messageDeleted (mid : MessageId)
  | messageReadUpdate (mid : MessageId) (userId : UserId)
  | messageReaction (mid : MessageId)
  | errorEv (msg : String)
  | callIncoming (fromUser : UserId) (roomId : RoomId) (callType : Nat)
  | callAccepted (fromUser : UserId) (roomId : RoomId)
  | callRejected (fromUser : UserId) (roomId : RoomId)
  | peerLeft
  | typingEv (sender : UserId) (roomId : RoomId)
deriving DecidableEq

/-- Emission targets: io.emit, io.to(socketId), io.to(roomId),
socket.to(roomId) (room minus the sending socket). -/
inductive Target where
  | all
  | toSocket (s : SocketId)
  | toRoom (r : RoomId)
  | toRoomExcept (r : RoomId) (s : SocketId)
deriving DecidableEq

/-- One emission made by a handler: a target and an event. -/
structure Emission where
  target : Target
  event : Event
deriving DecidableEq

/-- The in-memory server state of src/index.js: the onlineUsers Set, the
userSockets object (at most one socket id per user, assignment overwrites),
the Socket.IO room membership, and the set of currently connected sockets
(ghost state tracking which connections are actually live). -/
structure ServerState where
  onlineUsers : List UserId
  userSockets : List (UserId × SocketId)
  rooms : List (RoomId × SocketId)
  live : List (UserId × SocketId)
deriving DecidableEq

/-- The state at server start: everything empty. -/
def initState : ServerState :=
  { onlineUsers := [], userSockets := [], rooms := [], live := [] }

/-- JS object read userSockets[u]. -/
def lookupSocket : List (UserId × SocketId) → UserId → Option SocketId
  | [], _ => none
  | p :: rest, u => if p.1 = u then some p.2 else lookupSocket rest u

/-- JS object assignment userSockets[u] = s (overwrites any previous entry). -/
def setSocket (us : List (UserId × SocketId)) (u : UserId) (s : SocketId) :
    List (UserId × SocketId) :=
  us.filter (fun p => p.1 ≠ u) ++ [(u, s)]

/-- JS delete userSockets[u]. -/
def delSocket (us : List (UserId × SocketId)) (u : UserId) :
    List (UserId × SocketId) :=
  us.filter (fun p => p.1 ≠ u)

/-- JS Set.add: appends only when absent. -/
def setAdd (l : List UserId) (u : UserId) : List UserId :=
  if u ∈ l then l else l ++ [u]

/-- Sockets currently joined to a room. -/
def roomMembers (st : ServerState) (r : RoomId) : List SocketId :=
  (st.rooms.filter (fun p => p.1 = r)).map (fun p => p.2)

/-- The io.on connection callback head (src/index.js lines 53-63): store the
routing entry, add the user to the online set, broadcast userStatus online to
every connection, and send currentOnline (the full online set) to the newly
registered connection. -/
def connect (st : ServerState) (u : UserId) (s : SocketId) :
    ServerState × List Emission :=
  let ou := setAdd st.onlineUsers u
  ({ st with
      userSockets := setSocket st.userSockets u s
      onlineUsers := ou
      live := st.live ++ [(u, s)] },
   [⟨Target.all, Event.userStatus u true⟩,
    ⟨Target.toSocket s, Event.currentOnline ou⟩])

/-- The joinRoom handler (src/index.js lines 65-67): socket.join is an
idempotent add to the room membership. -/
def joinRoom (st : ServerState) (s : SocketId) (r : RoomId) : ServerState :=
  { st with rooms := if (r, s) ∈ st.rooms then st.rooms else st.rooms ++ [(r, s)] }

/-- The disconnect handler (src/index.js lines 317-332): drop the routing
entry only when it still points at this socket, emit peer-left to every room
the socket was in, remove the user from the online set unconditionally, and
broadcast userStatus offline unconditionally.  Socket.IO drops the room
memberships and the live connection itself. -/
def disconnect (st : ServerState) (u : UserId) (s : SocketId) :
    ServerState × List Emission :=
  let us :=
    if lookupSocket st.userSockets u = some s then delSocket st.userSockets u
    else st.userSockets
  let socketRooms := (st.rooms.filter (fun p => p.2 = s)).map (fun p => p.1)
  ({ st with
      userSockets := us
      onlineUsers := st.onlineUsers.erase u
      rooms := st.rooms.filter (fun p => p.2 ≠ s)
      live := st.live.filter (fun p => p ≠ (u, s)) },
   socketRooms.map (fun r => ⟨Target.toRoomExcept r s, Event.peerLeft⟩) ++
     [⟨Target.all, Event.userStatus u false⟩])

/-- Resolve an emission to the concrete sockets that receive the event,
given the state at emission time: io.emit reaches every live connection,
io.to(socketId) reaches that socket when it is live, io.to(roomId) reaches
the sockets joined to the room, socket.to(roomId) excludes the sender. -/
def resolveEmission (st : ServerState) (e : Emission) :
    List (SocketId × Event) :=
  match e.target with
  | Target.all => st.live.map (fun p => (p.2, e.event))
  | Target.toSocket s =>
      if s ∈ st.live.map (fun p => p.2) then [(s, e.event)] else []
  | Target.toRoom r => (roomMembers st r).map (fun s => (s, e.event))
  | Target.toRoomExcept r x =>
      ((roomMembers st r).filter (fun s => s ≠ x)).map (fun s => (s, e.event))

/-- All concrete deliveries of a list of emissions. -/
def deliveries (st : ServerState) (es : List Emission) :
    List (SocketId × Event) :=
  (es.map (resolveEmission st)).flatten

/-- Number of times a given socket receives a given event. -/
def countIn (l : List (SocketId × Event)) (c : SocketId) (ev : Event) : Nat :=
  (l.filter (fun p => p.1 = c ∧ p.2 = ev)).length

/-- Payload of the chatMessage socket event (src/index.js line 70):
type, roomId, content, recipient, messageType, imageUrl. -/
structure ChatData where
  type : MsgType
  roomId : RoomId
  content : Option String := none
  recipient : Option UserId := none
  messageType : Option MsgKind := none
  imageUrl : Option String := none

/-- The chatMessage handler (src/index.js lines 70-116): build the Message
document for the channel or direct case with messageType defaulting to text,
set deliveredTo to the singleton recipient when the routing table has an
entry for the recipient, save, emit messageReceived to the room, and for a
direct message additionally emit to the recipient routing socket when that
socket is not already in the room. -/
def chatMessage (st : ServerState) (store : Store) (senderId : UserId)
    (newId : MessageId) (d : ChatData) : Store × List Emission :=
  let doc : Message :=
    match d.type with
    | MsgType.channel =>
        { sender := senderId, content := d.content, type := MsgType.channel,
          channel := some d.roomId, messageType := d.messageType.getD MsgKind.text,
          imageUrl := d.imageUrl }
    | MsgType.direct =>
        { sender := senderId, content := d.content, type := MsgType.direct,
          recipient := d.recipient, messageType := d.messageType.getD MsgKind.text,
          imageUrl := d.imageUrl }
  let doc :=
    match d.type, d.recipient with
    | MsgType.direct, some b =>
        match lookupSocket st.userSockets b with
        | some _ => { doc with deliveredTo := [b] }
        | none => doc
    | _, _ => doc
  let extra : List Emission :=
    match d.type, d.recipient with
    | MsgType.direct, some b =>
        match lookupSocket st.userSockets b with
        | some rsid =>
            if rsid ∈ roomMembers st d.roomId then []
            else [⟨Target.toSocket rsid, Event.messageReceived newId⟩]
        | none => []
    | _, _ => []
  (saveNew store newId doc,
   ⟨Target.toRoom d.roomId, Event.messageReceived newId⟩ :: extra)

/-- The editMessage handler (src/index.js lines 175-206): not-found and
non-author failures emit an error to the calling socket only; on success the
content, isEdited flag and editedAt timestamp are set and messageEdited is
broadcast to the room. -/
def editMessage (store : Store) (callerUser : UserId) (callerSocket : SocketId)
    (messageId : MessageId) (content : Option String) (roomId : RoomId)
    (now : Nat) : Store × List Emission :=
  match findMsg store messageId with
  | none => (store, [⟨Target.toSocket callerSocket, Event.errorEv "Message not found"⟩])
  | some m =>
      if m.sender ≠ callerUser then
        (store, [⟨Target.toSocket callerSocket,
                  Event.errorEv "You can only edit your own messages"⟩])
      else
        (saveUpdate store messageId
           { m with content := content, isEdited := true, editedAt := some now },
         [⟨Target.toRoom roomId, Event.messageEdited messageId⟩])

/-- The deleteMessage handler (src/index.js lines 209-238): same failure
shape as editMessage; on success only the soft-delete flag is set and
messageDeleted is broadcast to the room. -/
def deleteMessage (store : Store) (callerUser : UserId)
    (callerSocket : SocketId) (messageId : MessageId) (roomId : RoomId) :
    Store × List Emission :=
  match findMsg store messageId with
  | none => (store, [⟨Target.toSocket callerSocket, Event.errorEv "Message not found"⟩])
  | some m =>
      if m.sender ≠ callerUser then
        (store, [⟨Target.toSocket callerSocket,
                  Event.errorEv "You can only delete your own messages"⟩])
      else
        (saveUpdate store messageId { m with isDeleted := true },
         [⟨Target.toRoom roomId, Event.messageDeleted messageId⟩])

/-- The messageRead handler (src/index.js lines 241-254): silently return
when the message is absent; when the reader is not yet in readBy, append it
and broadcast the lightweight messageReadUpdate pair to the room; otherwise
do nothing. -/
def messageRead (store : Store) (messageId : MessageId) (userId : UserId)
    (roomId : RoomId) : Store × List Emission :=
  match findMsg store messageId with
  | none => (store, [])
  | some m =>
      if userId ∈ m.readBy then (store, [])
      else
        (saveUpdate store messageId { m with readBy := m.readBy ++ [userId] },
         [⟨Target.toRoom roomId, Event.messageReadUpdate messageId userId⟩])

/-- The reaction update of the reactToMessage handler (src/index.js lines
266-273): find the previous reaction of the user, remove every reaction of
the user, and add the new one back unless the previous reaction used the
same emoji. -/
def applyReaction (reactions : List Reaction) (userId : UserId)
    (emoji : Emoji) : List Reaction :=
  let prev := reactions.find? (fun r => r.user = userId)
  let filtered := reactions.filter (fun r => r.user ≠ userId)
  match prev with
  | none => filtered ++ [⟨emoji, userId⟩]
  | some p => if p.emoji ≠ emoji then filtered ++ [⟨emoji, userId⟩] else filtered

/-- The reactToMessage handler (src/index.js lines 257-282): not-found emits
an error to the calling socket; otherwise the reactions array is updated via
applyReaction, saved, and the updated message is broadcast to the room. -/
def reactToMessage (store : Store) (callerUser : UserId)
    (callerSocket : SocketId) (messageId : MessageId) (emoji : Emoji)
    (roomId : RoomId) : Store × List Emission :=
  match findMsg store messageId with
  | none => (store, [⟨Target.toSocket callerSocket, Event.errorEv "Message not found"⟩])
  | some m =>
      (saveUpdate store messageId
         { m with reactions := applyReaction m.reactions callerUser emoji },
       [⟨Target.toRoom roomId, Event.messageReaction messageId⟩])

/-- Reactions of one user within a reactions array. -/
def userReactions (l : List Reaction) (u : UserId) : List Reaction :=
  l.filter (fun r => r.user = u)

/-- The call:request handler (src/index.js lines 287-292): forward
call:incoming to the routing socket of the target when one exists; there is
no else branch, so nothing at all is emitted otherwise. -/
def callRequest (st : ServerState) (toUser : UserId) (fromUser : UserId)
    (roomId : RoomId) (callType : Nat) : List Emission :=
  match lookupSocket st.userSockets toUser with
  | some rsid => [⟨Target.toSocket rsid, Event.callIncoming fromUser roomId callType⟩]
  | none => []

/-- The call:accept handler (src/index.js lines 295-300): same shape as
call:request. -/
def callAccept (st : ServerState) (toUser : UserId) (fromUser : UserId)
    (roomId : RoomId) : List Emission :=
  match lookupSocket st.userSockets toUser with
  | some rsid => [⟨Target.toSocket rsid, Event.callAccepted fromUser roomId⟩]
  | none => []

/-- The call:reject handler (src/index.js lines 303-308): same shape as
call:request. -/
def callReject (st : ServerState) (toUser : UserId) (fromUser : UserId)
    (roomId : RoomId) : List Emission :=
  match lookupSocket st.userSockets toUser with
  | some rsid => [⟨Target.toSocket rsid, Event.callRejected fromUser roomId⟩]
  | none => []

/-- JS truthiness of the content field: undefined, null and the empty string
are falsy, so the HTTP guard if not content rejects exactly these. -/
def contentFalsy : Option String → Bool
  | none => true
  | some s => s = ""

/-- Outcome of an HTTP message route (src/routes/messages.js). -/
inductive HttpResult where
  | created (mid : MessageId)
  | badRequest (msg : String)
  | notFound (msg : String)
deriving DecidableEq

/-- POST /api/messages/channel/:channelId (src/routes/messages.js lines
23-40): reject absent content with 400, reject an unknown channel with 404,
otherwise persist a new channel message. -/
def postChannelMessage (channels : List RoomId) (store : Store)
    (senderId : UserId) (newId : MessageId) (channelId : RoomId)
    (content : Option String) : Store × HttpResult :=
  if contentFalsy content then (store, HttpResult.badRequest "Message content required")
  else if channelId ∈ channels then
    (saveNew store newId
       { sender := senderId, content := content, type := MsgType.channel,
         channel := some channelId },
     HttpResult.created newId)
  else (store, HttpResult.notFound "Channel not found")

/-- POST /api/messages/direct/:userId (src/routes/messages.js lines 57-74):
reject absent content with 400, reject an unknown recipient with 404,
otherwise persist a new direct message. -/
def postDirectMessage (users : List UserId) (store : Store)
    (senderId : UserId) (newId : MessageId) (recipientId : UserId)
    (content : Option String) : Store × HttpResult :=
  if contentFalsy content then (store, HttpResult.badRequest "Message content required")
  else if recipientId ∈ users then
    (saveNew store newId
       { sender := senderId, content := content, type := MsgType.direct,
         recipient := some recipientId },
     HttpResult.created newId)
  else (store, HttpResult.notFound "Recipient not found")

/-- Connection-lifecycle actions driving the presence state machine. -/
inductive Act where
  | connect (u : UserId) (s : SocketId)
  | disconnect (u : UserId) (s : SocketId)
  | join (s : SocketId) (r : RoomId)
deriving DecidableEq

/-- State transition of one action (emissions dropped). -/
def stepState (st : ServerState) : Act → ServerState
  | Act.connect u s => (connect st u s).1
  | Act.disconnect u s => (disconnect st u s).1
  | Act.join s r => joinRoom st s r

/-- Run a trace of actions from a state. -/
def run (st : ServerState) : List Act → ServerState
  | [] => st
  | a :: tr => run (stepState st a) tr

/-- An action is valid in a state when a connect uses a fresh socket id, a
disconnect closes a currently live connection, and a join comes from a live
socket. -/
def ValidAct (st : ServerState) : Act → Prop
  | Act.connect _ s => s ∉ st.live.map (fun p => p.2)
  | Act.disconnect u s => (u, s) ∈ st.live
  | Act.join s _ => s ∈ st.live.map (fun p => p.2)

instance (st : ServerState) (a : Act) : Decidable (ValidAct st a) := by
  cases a <;> simp only [ValidAct] <;> infer_instance

/-- A valid trace from a state: every action valid in the state it runs in. -/
inductive ValidFrom : ServerState → List Act → Prop
  | nil (st : ServerState) : ValidFrom st []
  | cons {st : ServerState} {a : Act} {tr : List Act} :
      ValidAct st a → ValidFrom (stepState st a) tr → ValidFrom st (a :: tr)

/-- The single-connection discipline: additionally, a user connects only
while it has no other live connection. -/
def SingleAct (st : ServerState) : Act → Prop
  | Act.connect u s =>
      s ∉ st.live.map (fun p => p.2) ∧ u ∉ st.live.map (fun p => p.1)
  | Act.disconnect u s => (u, s) ∈ st.live
  | Act.join s _ => s ∈ st.live.map (fun p => p.2)

instance (st : ServerState) (a : Act) : Decidable (SingleAct st a) := by
  cases a <;> simp only [SingleAct] <;> infer_instance

/-- A trace obeying the single-connection discipline. -/
inductive SingleFrom : ServerState → List Act → Prop
  | nil (st : ServerState) : SingleFrom st []
  | cons {st : ServerState} {a : Act} {tr : List Act} :
      SingleAct st a → SingleFrom (stepState st a) tr → SingleFrom st (a :: tr)

/-! ### Helper lemmas about the store and the routing table -/

theorem findMsg_saveUpdate_self {store : Store} {mid : MessageId} {m0 : Message}
    (m : Message) (h : findMsg store mid = some m0) :
    findMsg (saveUpdate store mid m) mid = some m := by
  induction store with
  | nil => simp [findMsg] at h
  | cons p rest ih =>
      by_cases hp : p.1 = mid
      · simp [saveUpdate, findMsg, hp]
      · simp only [findMsg, hp, if_neg, ite_false] at h
        simpa [saveUpdate, findMsg, hp] using ih h

theorem findMsg_saveUpdate_ne {store : Store} {k k' : MessageId}
    (m : Message) (h : k' ≠ k) :
    findMsg (saveUpdate store k m) k' = findMsg store k' := by
  induction store with
  | nil => rfl
  | cons p rest ih =>
      by_cases hp : p.1 = k
      · have h1 : saveUpdate (p :: rest) k m = (k, m) :: saveUpdate rest k m := by
          simp [saveUpdate, hp]
        rw [h1, findMsg, findMsg, ih, if_neg (Ne.symm h),
          if_neg (show p.1 ≠ k' by rw [hp]; exact Ne.symm h)]
      · have h1 : saveUpdate (p :: rest) k m = p :: saveUpdate rest k m := by
          simp [saveUpdate, hp]
        rw [h1, findMsg, findMsg, ih]

theorem findMsg_saveNew_fresh {store : Store} {mid : MessageId}
    (m : Message) (h : findMsg store mid = none) :
    findMsg (saveNew store mid m) mid = some m := by
  induction store with
  | nil => simp [saveNew, findMsg]
  | cons p rest ih =>
      by_cases hp : p.1 = mid
      · simp [findMsg, hp] at h
      · simp only [findMsg, hp, ite_false] at h
        simpa [saveNew, findMsg, hp] using ih h

theorem lookupSocket_mem {us : List (UserId × SocketId)} {u : UserId}
    {t : SocketId} (h : lookupSocket us u = some t) : (u, t) ∈ us := by
  induction us with
  | nil => simp [lookupSocket] at h
  | cons p rest ih =>
      obtain ⟨a, b⟩ := p
      by_cases hp : a = u
      · subst hp
        simp only [lookupSocket, if_pos rfl] at h
        injection h with hb
        subst hb
        exact List.mem_cons_self _ _
      · simp only [lookupSocket, hp, ite_false] at h
        exact List.mem_cons_of_mem _ (ih h)

theorem lookupSocket_append (l1 l2 : List (UserId × SocketId)) (u : UserId) :
    lookupSocket (l1 ++ l2) u =
      match lookupSocket l1 u with
      | some s => some s
      | none => lookupSocket l2 u := by
  induction l1 with
  | nil => simp [lookupSocket]
  | cons p rest ih =>
      by_cases hp : p.1 = u
      · simp [lookupSocket, hp]
      · simp [lookupSocket, hp, ih]

theorem lookupSocket_filter_ne (us : List (UserId × SocketId)) (u : UserId) :
    lookupSocket (us.filter (fun p => p.1 ≠ u)) u = none := by
  induction us with
  | nil => simp [lookupSocket]
  | cons p rest ih =>
      by_cases hp : p.1 = u
      · simpa [hp] using ih
      · simpa [hp, lookupSocket] using ih

theorem lookupSocket_setSocket_self (us : List (UserId × SocketId))
    (u : UserId) (s : SocketId) : lookupSocket (setSocket us u s) u = some s := by
  rw [setSocket, lookupSocket_append, lookupSocket_filter_ne]
  simp [lookupSocket]

/-! ### Helper lemmas about reactions -/

theorem userReactions_filter_ne (l : List Reaction) (u : UserId) :
    userReactions (l.filter (fun r => r.user ≠ u)) u = [] := by
  induction l with
  | nil => rfl
  | cons r rest ih =>
      by_cases hr : r.user = u
      · rw [List.filter_cons, if_neg (by simp [hr])]
        exact ih
      · rw [List.filter_cons, if_pos (by simp [hr])]
        rw [userReactions, List.filter_cons, if_neg (by simp [hr])]
        exact ih

theorem find?_filter_ne_none (l : List Reaction) (u : UserId) :
    (l.filter (fun r => r.user ≠ u)).find? (fun r => r.user = u) = none := by
  rw [List.find?_eq_none]
  intro x hx
  have hx2 := (List.mem_filter.mp hx).2
  simp at hx2 ⊢
  exact hx2

theorem filter_ne_idem (l : List Reaction) (u : UserId) :
    (l.filter (fun r => r.user ≠ u)).filter (fun r => r.user ≠ u) =
      l.filter (fun r => r.user ≠ u) := by
  apply List.filter_eq_self.mpr
  intro a ha
  exact (List.mem_filter.mp ha).2

theorem userReactions_append (l1 l2 : List Reaction) (u : UserId) :
    userReactions (l1 ++ l2) u = userReactions l1 u ++ userReactions l2 u := by
  simp [userReactions, List.filter_append]

theorem find?_append_of_none {α : Type} (p : α → Bool) {l1 : List α}
    (l2 : List α) (h : l1.find? p = none) :
    (l1 ++ l2).find? p = l2.find? p := by
  induction l1 with
  | nil => rfl
  | cons a rest ih =>
      cases hpa : p a with
      | true => simp [List.find?, hpa] at h
      | false =>
          simp only [List.find?, hpa] at h
          simpa [List.find?, hpa] using ih h

theorem applyReaction_of_no_prior (l : List Reaction) (u : UserId) (e : Emoji)
    (h : ∀ r ∈ l, r.user = u → r.emoji ≠ e) :
    applyReaction l u e = l.filter (fun r => r.user ≠ u) ++ [⟨e, u⟩] := by
  simp only [applyReaction]
  cases hf : l.find? (fun r => r.user = u) with
  | none => rfl
  | some p =>
      have hpu : p.user = u := by simpa using List.find?_some hf
      have hne : p.emoji ≠ e := h p (List.mem_of_find?_eq_some hf) hpu
      simp [hne]

theorem applyReaction_shape (l : List Reaction) (u : UserId) (e : Emoji) :
    applyReaction l u e = l.filter (fun r => r.user ≠ u) ∨
    applyReaction l u e = l.filter (fun r => r.user ≠ u) ++ [⟨e, u⟩] := by
  simp only [applyReaction]
  cases hf : l.find? (fun r => r.user = u) with
  | none => right; rfl
  | some p =>
      by_cases he : p.emoji = e
      · left; simp [he]
      · right; simp [he]

theorem applyReaction_of_filtered (l : List Reaction) (u : UserId) (e : Emoji) :
    applyReaction (l.filter (fun r => r.user ≠ u)) u e =
      l.filter (fun r => r.user ≠ u) ++ [⟨e, u⟩] := by
  simp only [applyReaction, find?_filter_ne_none, filter_ne_idem]

theorem applyReaction_after_add (l : List Reaction) (u : UserId) (e e2 : Emoji) :
    applyReaction (l.filter (fun r => r.user ≠ u) ++ [⟨e, u⟩]) u e2 =
      if e = e2 then l.filter (fun r => r.user ≠ u)
      else l.filter (fun r => r.user ≠ u) ++ [⟨e2, u⟩] := by
  have hfind : List.find? (fun r => r.user = u)
      (l.filter (fun r => r.user ≠ u) ++ [(⟨e, u⟩ : Reaction)]) =
      some (⟨e, u⟩ : Reaction) := by
    rw [find?_append_of_none _ _ (find?_filter_ne_none l u)]
    simp [List.find?]
  have hfilter : List.filter (fun r => r.user ≠ u)
      (l.filter (fun r => r.user ≠ u) ++ [(⟨e, u⟩ : Reaction)]) =
      l.filter (fun r => r.user ≠ u) := by
    rw [List.filter_append, filter_ne_idem]
    simp
  simp only [applyReaction, hfind, hfilter]
  by_cases he : e = e2
  · simp [he]
  · simp [he]

theorem reactToMessage_found (store : Store) (caller : UserId)
    (sock : SocketId) (mid : MessageId) (e : Emoji) (roomId : RoomId)
    (m : Message) (hm : findMsg store mid = some m) :
    (reactToMessage store caller sock mid e roomId).1 =
      saveUpdate store mid
        { m with reactions := applyReaction m.reactions caller e } ∧
    findMsg (reactToMessage store caller sock mid e roomId).1 mid =
      some { m with reactions := applyReaction m.reactions caller e } := by
  constructor
  · simp [reactToMessage, hm]
  · simp only [reactToMessage, hm]
    exact findMsg_saveUpdate_self _ hm

/-- A sequence of messageRead events, each carrying messageId, userId and
roomId, processed in order. -/
def runReads (store : Store) : List (MessageId × UserId × RoomId) → Store
  | [] => store
  | e :: es => runReads (messageRead store e.1 e.2.1 e.2.2).1 es

theorem messageRead_step_extend (store : Store) (mid : MessageId)
    (m : Message) (h : findMsg store mid = some m)
    (e : MessageId × UserId × RoomId) :
    ∃ m', findMsg (messageRead store e.1 e.2.1 e.2.2).1 mid = some m' ∧
      (∃ t, m'.readBy = m.readBy ++ t) ∧
      (m.readBy.Nodup → m'.readBy.Nodup) := by
  obtain ⟨mid2, u2, r2⟩ := e
  by_cases hmid : mid2 = mid
  · subst hmid
    by_cases hu : u2 ∈ m.readBy
    · exact ⟨m, by simp [messageRead, h, hu], ⟨[], by simp⟩, fun hn => hn⟩
    · refine ⟨{ m with readBy := m.readBy ++ [u2] }, ?_, ⟨[u2], rfl⟩, ?_⟩
      · simp only [messageRead, h, hu, ite_false]
        exact findMsg_saveUpdate_self _ h
      · intro hn
        simp [List.nodup_append, hn, hu]
  · cases hfind : findMsg store mid2 with
    | none => exact ⟨m, by simp [messageRead, hfind, h], ⟨[], by simp⟩, fun hn => hn⟩
    | some m2 =>
        by_cases hu : u2 ∈ m2.readBy
        · exact ⟨m, by simp [messageRead, hfind, hu, h], ⟨[], by simp⟩, fun hn => hn⟩
        · refine ⟨m, ?_, ⟨[], by simp⟩, fun hn => hn⟩
          simp only [messageRead, hfind, hu, ite_false]
          rw [findMsg_saveUpdate_ne _ (fun hh => hmid hh.symm)]
          exact h

theorem runReads_extend (evs : List (MessageId × UserId × RoomId)) :
    ∀ (store : Store) (mid : MessageId) (m : Message),
      findMsg store mid = some m →
      ∃ m', findMsg (runReads store evs) mid = some m' ∧
        (∃ t, m'.readBy = m.readBy ++ t) ∧
        (m.readBy.Nodup → m'.readBy.Nodup) := by
  induction evs with
  | nil => exact fun store mid m h => ⟨m, h, ⟨[], by simp⟩, fun hn => hn⟩
  | cons e es ih =>
      intro store mid m h
      obtain ⟨m1, h1, ⟨t1, ht1⟩, hn1⟩ := messageRead_step_extend store mid m h e
      obtain ⟨m2, h2, ⟨t2, ht2⟩, hn2⟩ := ih _ mid m1 h1
      exact ⟨m2, h2, ⟨t1 ++ t2, by rw [ht2, ht1, List.append_assoc]⟩,
        fun hn => hn2 (hn1 hn)⟩

/-- Claim C7: an edit or delete of a missing message fails with a not-found
error emitted only to the calling socket, an edit or delete by a non-author
fails with a forbidden error emitted only to the calling socket, and in both
failure cases the store is returned unchanged and the single emission goes
to the calling socket, so nothing is broadcast to the room. -/
theorem edit_delete_failure_frame (store : Store) (caller : UserId)
    (sock : SocketId) (mid : MessageId) (content : Option String)
    (roomId : RoomId) (now : Nat) :
    (findMsg store mid = none →
      editMessage store caller sock mid content roomId now =
        (store, [⟨Target.toSocket sock, Event.errorEv "Message not found"⟩]) ∧
      deleteMessage store caller sock mid roomId =
        (store, [⟨Target.toSocket sock, Event.errorEv "Message not found"⟩])) ∧
    (∀ m, findMsg store mid = some m → m.sender ≠ caller →
      editMessage store caller sock mid content roomId now =
        (store, [⟨Target.toSocket sock,
          Event.errorEv "You can only edit your own messages"⟩]) ∧
      deleteMessage store caller sock mid roomId =
        (store, [⟨Target.toSocket sock,
          Event.errorEv "You can only delete your own messages"⟩])) := by
  constructor
  · intro h
    constructor
    · simp [editMessage, h]
    · simp [deleteMessage, h]
  · intro m hm hs
    constructor
    · simp [editMessage, hm, hs]
    · simp [deleteMessage, hm, hs]

/-- Witness for the C7 theorem: a store holding one message from sender 5;
caller 2 can neither edit nor delete it, the store is unchanged and only the
caller socket 9 gets the error. -/
theorem edit_delete_failure_frame_witness :
    editMessage [((1 : MessageId), { sender := 5, type := MsgType.channel })]
        2 9 1 none 3 4 =
      ([((1 : MessageId), { sender := 5, type := MsgType.channel })],
       [⟨Target.toSocket 9,
         Event.errorEv "You can only edit your own messages"⟩]) ∧
    deleteMessage [((1 : MessageId), { sender := 5, type := MsgType.channel })]
        2 9 1 3 =
      ([((1 : MessageId), { sender := 5, type := MsgType.channel })],
       [⟨Target.toSocket 9,
         Event.errorEv "You can only delete your own messages"⟩]) :=
  (edit_delete_failure_frame
      [((1 : MessageId), { sender := 5, type := MsgType.channel })]
      2 9 1 none 3 4).2
    { sender := 5, type := MsgType.channel } rfl (by decide)

/-- Claim C8: a messageRead for a reader already in readBy is a no-op with
no broadcast, a messageRead for a new reader appends it exactly once and
broadcasts only the lightweight messageId/userId pair to the room, and over
every sequence of messageRead events the readBy list only ever grows by a
suffix and stays duplicate-free. -/
theorem messageRead_monotone (store : Store) (mid : MessageId) (m : Message)
    (h : findMsg store mid = some m) :
    (∀ u r, u ∈ m.readBy → messageRead store mid u r = (store, [])) ∧
    (∀ u r, u ∉ m.readBy →
      messageRead store mid u r =
        (saveUpdate store mid { m with readBy := m.readBy ++ [u] },
         [⟨Target.toRoom r, Event.messageReadUpdate mid u⟩])) ∧
    (∀ evs, ∃ m', findMsg (runReads store evs) mid = some m' ∧
      (∃ t, m'.readBy = m.readBy ++ t) ∧
      (m.readBy.Nodup → m'.readBy.Nodup)) := by
  refine ⟨?_, ?_, fun evs => runReads_extend evs store mid m h⟩
  · intro u r hu
    simp [messageRead, h, hu]
  · intro u r hu
    simp [messageRead, h, hu]

/-- Claim C1 (amended): provided the reacting user has no existing reaction
with emoji E on the message, reacting with E twice in succession leaves the
message with no reaction from that user; reacting with E and then with a
different emoji F leaves exactly one reaction (F) from that user regardless
of the prior state; and after any reaction operation the reaction set holds
at most one entry for that user.  The unamended claim fails when the user
already had reaction E: the first event toggles it off and the second adds
it back. -/
theorem react_toggle_amended (store : Store) (mid : MessageId) (m : Message)
    (caller : UserId) (sock : SocketId) (E F : Emoji) (roomId : RoomId)
    (hm : findMsg store mid = some m) :
    ((∀ r ∈ m.reactions, r.user = caller → r.emoji ≠ E) →
      ∃ m2, findMsg (reactToMessage (reactToMessage store caller sock mid E
          roomId).1 caller sock mid E roomId).1 mid = some m2 ∧
        userReactions m2.reactions caller = []) ∧
    (F ≠ E →
      ∃ m3, findMsg (reactToMessage (reactToMessage store caller sock mid E
          roomId).1 caller sock mid F roomId).1 mid = some m3 ∧
        userReactions m3.reactions caller = [⟨F, caller⟩]) ∧
    (∀ G, ∃ m4,
      findMsg (reactToMessage store caller sock mid G roomId).1 mid = some m4 ∧
        (userReactions m4.reactions caller).length ≤ 1) := by
  refine ⟨?_, ?_, ?_⟩
  · intro hE
    have h1 := (reactToMessage_found store caller sock mid E roomId m hm).2
    have hr1 : (applyReaction m.reactions caller E) =
        m.reactions.filter (fun r => r.user ≠ caller) ++ [⟨E, caller⟩] :=
      applyReaction_of_no_prior _ _ _ hE
    have h2 := (reactToMessage_found _ caller sock mid E roomId _ h1).2
    refine ⟨_, h2, ?_⟩
    show userReactions
      (applyReaction ({ m with
        reactions := applyReaction m.reactions caller E }).reactions caller E)
      caller = []
    simp only []
    rw [hr1, applyReaction_after_add, if_pos rfl]
    exact userReactions_filter_ne _ _
  · intro hFE
    have h1 := (reactToMessage_found store caller sock mid E roomId m hm).2
    have h2 := (reactToMessage_found _ caller sock mid F roomId _ h1).2
    refine ⟨_, h2, ?_⟩
    show userReactions
      (applyReaction ({ m with
        reactions := applyReaction m.reactions caller E }).reactions caller F)
      caller = [⟨F, caller⟩]
    simp only []
    rcases applyReaction_shape m.reactions caller E with hsh | hsh
    · rw [hsh, applyReaction_of_filtered, userReactions_append,
        userReactions_filter_ne]
      simp [userReactions]
    · rw [hsh, applyReaction_after_add, if_neg (fun hh => hFE hh.symm),
        userReactions_append, userReactions_filter_ne]
      simp [userReactions]
  · intro G
    have h1 := (reactToMessage_found store caller sock mid G roomId m hm).2
    refine ⟨_, h1, ?_⟩
    show (userReactions (applyReaction m.reactions caller G) caller).length ≤ 1
    rcases applyReaction_shape m.reactions caller G with hsh | hsh
    · rw [hsh, userReactions_filter_ne]
      simp
    · rw [hsh, userReactions_append, userReactions_filter_ne]
      simp [userReactions]

/-- Witness for the C1 theorem: user 2 reacts twice with emoji 5 on a
message that had no reactions; afterwards user 2 has no reaction. -/
theorem react_toggle_amended_witness :
    (findMsg (reactToMessage (reactToMessage
          [((1 : MessageId), { sender := 3, type := MsgType.channel })]
          2 9 1 5 4).1 2 9 1 5 4).1 1).map
        (fun m => userReactions m.reactions 2) = some [] := by
  obtain ⟨m2, h1, h2⟩ :=
    (react_toggle_amended
        [((1 : MessageId), { sender := 3, type := MsgType.channel })]
        1 { sender := 3, type := MsgType.channel } 2 9 5 6 4 rfl).1
      (by simp)
  rw [h1]
  simp [h2]

/-- Claim C1 counterexample: on a message where user 2 already has reaction
emoji 5, user 2 reacting with emoji 5 twice in succession ends with reaction
5 still present, not with no reaction. -/
theorem react_same_twice_cex :
    (findMsg (reactToMessage (reactToMessage
          [((1 : MessageId), { sender := 3, type := MsgType.channel, reactions := [⟨5, 2⟩] })]
          2 9 1 5 4).1 2 9 1 5 4).1 1).map
        (fun m => userReactions m.reactions 2) = some [⟨5, 2⟩] := by
  decide

/-- Witness for the C8 theorem: a store with one message already read by
user 2; a repeated messageRead by user 2 is a no-op with no emission. -/
theorem messageRead_monotone_witness :
    messageRead
        [((1 : MessageId),
          { sender := 3, type := MsgType.channel, readBy := [2] })] 1 2 7 =
      ([((1 : MessageId),
          { sender := 3, type := MsgType.channel, readBy := [2] })], []) :=
  ((messageRead_monotone
      [((1 : MessageId),
        { sender := 3, type := MsgType.channel, readBy := [2] })]
      1 { sender := 3, type := MsgType.channel, readBy := [2] } rfl).1)
    2 7 (by decide)

/-- Claim C6 (amended): a call-signaling request, accept or reject whose
target user has no routing-table entry is silently dropped: nothing is
forwarded and no error is emitted to anyone, the caller included; when an
entry exists, the payload is forwarded to that single socket.  The
unamended claim fails because the handlers have no else branch, so no
PeerOffline error is ever sent. -/
theorem call_signaling_offline_amended (st : ServerState)
    (toUser fromUser : UserId) (roomId : RoomId) (callType : Nat)
    (h : lookupSocket st.userSockets toUser = none) :
    callRequest st toUser fromUser roomId callType = [] ∧
    callAccept st toUser fromUser roomId = [] ∧
    callReject st toUser fromUser roomId = [] := by
  refine ⟨?_, ?_, ?_⟩ <;> simp [callRequest, callAccept, callReject, h]

/-- Witness for the C6 theorem: in the initial state user 3 has no routing
entry and a call:request from user 7 emits nothing. -/
theorem call_signaling_offline_amended_witness :
    callRequest initState 3 7 5 0 = [] ∧
    callAccept initState 3 7 5 = [] ∧
    callReject initState 3 7 5 = [] :=
  call_signaling_offline_amended initState 3 7 5 0 rfl

/-- Claim C6 counterexample: user 3 has no live connection in the initial
state, yet a call:request towards user 3 produces an empty emission list, so
no PeerOffline error reaches the calling connection. -/
theorem call_signaling_offline_cex :
    initState.live = [] ∧ callRequest initState 3 7 5 0 = [] ∧
    deliveries initState (callRequest initState 3 7 5 0) = [] := by
  decide

/-- Claim C9 (amended): the HTTP message routes reject a send whose content
is absent (or empty, both falsy in JS) with a 400 validation error and
persist nothing; the socket chatMessage handler performs no content
validation at all and persists a text message with absent content, emitting
only messageReceived and no error. -/
theorem send_validation_amended (channels : List RoomId) (users : List UserId)
    (store : Store) (senderId : UserId) (newId : MessageId)
    (channelId : RoomId) (recipientId : UserId) (content : Option String)
    (st : ServerState) (rm : RoomId)
    (h : contentFalsy content = true) :
    postChannelMessage channels store senderId newId channelId content =
      (store, HttpResult.badRequest "Message content required") ∧
    postDirectMessage users store senderId newId recipientId content =
      (store, HttpResult.badRequest "Message content required") ∧
    (chatMessage st store senderId newId
        { type := MsgType.channel, roomId := rm, content := none }).1 =
      saveNew store newId
        { sender := senderId, content := none, type := MsgType.channel,
          channel := some rm } ∧
    (chatMessage st store senderId newId
        { type := MsgType.channel, roomId := rm, content := none }).2 =
      [⟨Target.toRoom rm, Event.messageReceived newId⟩] := by
  refine ⟨?_, ?_, ?_, ?_⟩
  · simp [postChannelMessage, h]
  · simp [postDirectMessage, h]
  · simp [chatMessage]
  · simp [chatMessage]

/-- Witness for the C9 theorem at absent content on an empty store. -/
theorem send_validation_amended_witness :
    postChannelMessage [4] [] 3 100 4 none =
      ([], HttpResult.badRequest "Message content required") ∧
    (chatMessage initState [] 3 100
        { type := MsgType.channel, roomId := 7, content := none }).1 =
      [((100 : MessageId),
        { sender := 3, content := none, type := MsgType.channel,
          channel := some 7 })] := by
  have h := send_validation_amended [4] [] [] 3 100 4 0 none initState 7 rfl
  exact ⟨h.1, h.2.2.1⟩

/-- Claim C9 counterexample: a chatMessage send of a text-kind message with
absent content is persisted into the store and only messageReceived is
emitted, with no validation error to the originating connection. -/
theorem send_validation_cex :
    (chatMessage initState [] 3 100
        { type := MsgType.channel, roomId := 7, content := none }).1 =
      [((100 : MessageId),
        { sender := 3, content := none, type := MsgType.channel,
          channel := some 7 })] ∧
    (chatMessage initState [] 3 100
        { type := MsgType.channel, roomId := 7, content := none }).2 =
      [⟨Target.toRoom 7, Event.messageReceived 100⟩] := by
  constructor
  · rfl
  · rfl

/-- Claim C10: on disconnect the routing entry for the user is removed only
when it still points at the disconnecting socket, so a newer connection's
entry survives an older connection's late disconnect; yet the user is
removed from the online set and an offline userStatus event is broadcast to
everyone unconditionally, even when the surviving routing entry remains. -/
theorem disconnect_frame (st : ServerState) (u : UserId) (s : SocketId) :
    ((disconnect st u s).1.userSockets =
      if lookupSocket st.userSockets u = some s then delSocket st.userSockets u
      else st.userSockets) ∧
    (∀ t, lookupSocket st.userSockets u = some t → t ≠ s →
      lookupSocket (disconnect st u s).1.userSockets u = some t) ∧
    ((disconnect st u s).1.onlineUsers = st.onlineUsers.erase u) ∧
    ⟨Target.all, Event.userStatus u false⟩ ∈ (disconnect st u s).2 := by
  refine ⟨rfl, ?_, rfl, by simp [disconnect]⟩
  intro t ht hts
  have hne : ¬lookupSocket st.userSockets u = some s := by
    rw [ht]
    exact fun hh => hts (Option.some.inj hh)
  simp only [disconnect, hne, ite_false]
  exact ht

/-- Witness for the C10 theorem: user 0 connected socket 1 then socket 2;
after socket 1 disconnects late, the routing entry still points at socket 2,
while the online set lost user 0 and offline was broadcast. -/
theorem disconnect_frame_witness :
    lookupSocket (disconnect (run initState
        [Act.connect 0 1, Act.connect 0 2]) 0 1).1.userSockets 0 = some 2 ∧
    (disconnect (run initState
        [Act.connect 0 1, Act.connect 0 2]) 0 1).1.onlineUsers = [] ∧
    ⟨Target.all, Event.userStatus 0 false⟩ ∈
      (disconnect (run initState [Act.connect 0 1, Act.connect 0 2]) 0 1).2 := by
  have h := disconnect_frame (run initState [Act.connect 0 1, Act.connect 0 2]) 0 1
  exact ⟨h.2.1 2 (by decide) (by decide), by rw [h.2.2.1]; decide, h.2.2.2⟩

/-- Claim C4 (amended): every registration overwrites the user's single
routing entry with the new socket, adds the user to the online set, emits a
userStatus online event to all connections (including the registering one)
on every registration, not only the first, and always sends the registering
connection the full current online-user-id set.  The unamended claim fails
because the broadcast is unconditional and echoed to the registering
connection. -/
theorem connect_registration_amended (st : ServerState) (u : UserId)
    (s : SocketId) :
    lookupSocket (connect st u s).1.userSockets u = some s ∧
    u ∈ (connect st u s).1.onlineUsers ∧
    (connect st u s).2 =
      [⟨Target.all, Event.userStatus u true⟩,
       ⟨Target.toSocket s,
        Event.currentOnline (connect st u s).1.onlineUsers⟩] := by
  refine ⟨lookupSocket_setSocket_self _ _ _, ?_, rfl⟩
  show u ∈ setAdd st.onlineUsers u
  by_cases h : u ∈ st.onlineUsers
  · rw [setAdd, if_pos h]
    exact h
  · simp [setAdd, h]

/-- Claim C4 counterexample: user 0 already has a live connection (socket 1)
when socket 2 registers; the online userStatus broadcast still fires and is
delivered both to the other connection and to the registering connection
itself, although this is not the first handle of user 0. -/
theorem connect_registration_cex :
    ((0 : UserId), (1 : SocketId)) ∈ (run initState [Act.connect 0 1]).live ∧
    ((2 : SocketId), Event.userStatus 0 true) ∈
      deliveries (connect (run initState [Act.connect 0 1]) 0 2).1
        (connect (run initState [Act.connect 0 1]) 0 2).2 ∧
    ((1 : SocketId), Event.userStatus 0 true) ∈
      deliveries (connect (run initState [Act.connect 0 1]) 0 2).1
        (connect (run initState [Act.connect 0 1]) 0 2).2 := by
  decide

/-! ### Counting lemmas for delivery fan-out -/

theorem deliveries_nil (st : ServerState) : deliveries st [] = [] := rfl

theorem deliveries_cons (st : ServerState) (e : Emission)
    (es : List Emission) :
    deliveries st (e :: es) = resolveEmission st e ++ deliveries st es := by
  simp [deliveries]

theorem countIn_append (l1 l2 : List (SocketId × Event)) (c : SocketId)
    (ev : Event) :
    countIn (l1 ++ l2) c ev = countIn l1 c ev + countIn l2 c ev := by
  simp [countIn, List.filter_append]

theorem countIn_cons (a : SocketId) (ev2 : Event)
    (l : List (SocketId × Event)) (c : SocketId) (ev : Event) :
    countIn ((a, ev2) :: l) c ev =
      (if a = c ∧ ev2 = ev then 1 else 0) + countIn l c ev := by
  by_cases h : a = c ∧ ev2 = ev
  · rw [countIn, List.filter_cons, if_pos (by simpa using h), if_pos h]
    simp [countIn, Nat.add_comm]
  · rw [countIn, List.filter_cons, if_neg (by simpa using h), if_neg h]
    simp [countIn]

theorem countIn_map (l : List SocketId) (c : SocketId) (ev : Event) :
    countIn (l.map (fun s => (s, ev))) c ev =
      (l.filter (fun s => s = c)).length := by
  induction l with
  | nil => rfl
  | cons a rest ih =>
      rw [List.map_cons, countIn_cons, ih, List.filter_cons]
      by_cases hac : a = c
      · simp [hac, Nat.add_comm]
      · simp [hac]

theorem filter_self_length_nodup (l : List SocketId) (c : SocketId)
    (h : l.Nodup) :
    (l.filter (fun s => s = c)).length = if c ∈ l then 1 else 0 := by
  induction l with
  | nil => simp
  | cons a rest ih =>
      obtain ⟨ha, hnd⟩ := List.nodup_cons.mp h
      by_cases hac : a = c
      · subst hac
        rw [List.filter_cons, if_pos (by simp)]
        have hrest : rest.filter (fun s => s = a) = [] := by
          rw [List.filter_eq_nil_iff]
          intro x hx
          simp only [decide_eq_true_eq]
          rintro rfl
          exact ha hx
        simp [hrest]
      · rw [List.filter_cons, if_neg (by simp [hac]), ih hnd]
        have hca : ¬c = a := fun hh => hac hh.symm
        simp [List.mem_cons, hca]

/-- Claim C2 (amended): for a direct-message send whose recipient has a
routing-table entry (its most recently registered connection, live), the
delivery target set is the room members united with that connection when it
is not already in the room, and every target connection — including a
recipient connection that never joined the room — receives the
messageReceived event exactly once, with the membership check guarding the
extra send.  The unamended claim fails because a live recipient connection
that is not the routing entry receives nothing. -/
theorem chatMessage_direct_delivery (st : ServerState) (store : Store)
    (senderId : UserId) (newId : MessageId) (d : ChatData) (b : UserId)
    (rsid : SocketId)
    (hty : d.type = MsgType.direct) (hrec : d.recipient = some b)
    (hlook : lookupSocket st.userSockets b = some rsid)
    (hlive : rsid ∈ st.live.map (fun p => p.2))
    (hnd : (roomMembers st d.roomId).Nodup) :
    ∀ c, countIn (deliveries st (chatMessage st store senderId newId d).2) c
        (Event.messageReceived newId) =
      if c ∈ roomMembers st d.roomId ∨ c = rsid then 1 else 0 := by
  intro c
  have hems : (chatMessage st store senderId newId d).2 =
      ⟨Target.toRoom d.roomId, Event.messageReceived newId⟩ ::
        (if rsid ∈ roomMembers st d.roomId then []
         else [⟨Target.toSocket rsid, Event.messageReceived newId⟩]) := by
    simp [chatMessage, hty, hrec, hlook]
  have hroom : countIn (resolveEmission st
      ⟨Target.toRoom d.roomId, Event.messageReceived newId⟩) c
      (Event.messageReceived newId) =
      if c ∈ roomMembers st d.roomId then 1 else 0 := by
    show countIn ((roomMembers st d.roomId).map
      (fun s => (s, Event.messageReceived newId))) c
      (Event.messageReceived newId) = _
    rw [countIn_map, filter_self_length_nodup _ _ hnd]
  by_cases hin : rsid ∈ roomMembers st d.roomId
  · rw [hems, if_pos hin, deliveries_cons, deliveries_nil, List.append_nil,
      hroom]
    by_cases hc : c ∈ roomMembers st d.roomId
    · rw [if_pos hc, if_pos (Or.inl hc)]
    · rw [if_neg hc, if_neg ?hneg]
      case hneg =>
        rintro (h | rfl)
        · exact hc h
        · exact hc hin
  · have hsock : countIn (resolveEmission st
        ⟨Target.toSocket rsid, Event.messageReceived newId⟩) c
        (Event.messageReceived newId) = if c = rsid then 1 else 0 := by
      show countIn (if rsid ∈ st.live.map (fun p => p.2)
        then [(rsid, Event.messageReceived newId)] else []) c
        (Event.messageReceived newId) = _
      rw [if_pos hlive, countIn_cons]
      simp [countIn, eq_comm]
    rw [hems, if_neg hin, deliveries_cons, deliveries_cons, deliveries_nil,
      List.append_nil, countIn_append, hroom, hsock]
    by_cases hc : c ∈ roomMembers st d.roomId
    · have hcr : ¬c = rsid := fun hh => hin (hh ▸ hc)
      rw [if_pos hc, if_neg hcr, if_pos (Or.inl hc)]
    · by_cases hcr : c = rsid
      · rw [if_neg hc, if_pos hcr, if_pos (Or.inr hcr)]
      · rw [if_neg hc, if_neg hcr,
          if_neg (by rintro (h | h); exacts [hc h, hcr h])]

/-- Witness for the C2 theorem: sender user 7 on socket 1 joined room 5;
recipient user 0 is routed to socket 2, which never joined room 5 and still
receives messageReceived exactly once. -/
theorem chatMessage_direct_delivery_witness :
    countIn (deliveries
        (run initState [Act.connect 7 1, Act.connect 0 2, Act.join 1 5])
        (chatMessage
          (run initState [Act.connect 7 1, Act.connect 0 2, Act.join 1 5])
          [] 7 100
          { type := MsgType.direct, roomId := 5, content := none,
            recipient := some 0 }).2) 2 (Event.messageReceived 100) = 1 := by
  have h := chatMessage_direct_delivery
    (run initState [Act.connect 7 1, Act.connect 0 2, Act.join 1 5]) [] 7 100
    { type := MsgType.direct, roomId := 5, content := none,
      recipient := some 0 } 0 2 rfl rfl (by decide) (by decide) (by decide) 2
  rw [h]
  decide

/-- Claim C2 counterexample: recipient user 0 has a live connection
(socket 1, which never joined room 5) but no routing entry, because a newer
connection (socket 2) was registered and then disconnected; the direct send
delivers zero messageReceived events to socket 1, not exactly one. -/
theorem chatMessage_direct_delivery_cex :
    ((0 : UserId), (1 : SocketId)) ∈
      (run initState
        [Act.connect 0 1, Act.connect 0 2, Act.disconnect 0 2]).live ∧
    (1 : SocketId) ∉ roomMembers
      (run initState
        [Act.connect 0 1, Act.connect 0 2, Act.disconnect 0 2]) 5 ∧
    countIn (deliveries
        (run initState [Act.connect 0 1, Act.connect 0 2, Act.disconnect 0 2])
        (chatMessage
          (run initState
            [Act.connect 0 1, Act.connect 0 2, Act.disconnect 0 2])
          [] 7 100
          { type := MsgType.direct, roomId := 5, content := none,
            recipient := some 0 }).2) 1 (Event.messageReceived 100) = 0 := by
  decide

/-! ### Invariant: routing entries point at live connections -/

/-- Well-formedness of the routing table: keys are unique and every entry
refers to a live connection. -/
def UsInv (st : ServerState) : Prop :=
  ((st.userSockets.map (fun p => p.1)).Nodup) ∧
  ∀ p ∈ st.userSockets, p ∈ st.live

theorem usInv_init : UsInv initState := by
  constructor <;> simp [initState]

theorem mem_lookup_of_nodup {us : List (UserId × SocketId)}
    (hnd : (us.map (fun p => p.1)).Nodup) {u : UserId} {t : SocketId}
    (h : (u, t) ∈ us) : lookupSocket us u = some t := by
  induction us with
  | nil => cases h
  | cons p rest ih =>
      obtain ⟨a, b⟩ := p
      rw [List.map_cons, List.nodup_cons] at hnd
      rcases List.mem_cons.mp h with heq | hmem
      · cases heq
        simp [lookupSocket]
      · have ha : ¬(a, b).1 = u := by
          intro hh
          apply hnd.1
          exact hh ▸ List.mem_map.mpr ⟨(u, t), hmem, rfl⟩
        rw [lookupSocket, if_neg ha]
        exact ih hnd.2 hmem

theorem usInv_step (st : ServerState) (a : Act) (h : UsInv st) :
    UsInv (stepState st a) := by
  obtain ⟨hnd, hsub⟩ := h
  cases a with
  | connect u s =>
      constructor
      · show ((setSocket st.userSockets u s).map (fun p => p.1)).Nodup
        rw [setSocket, List.map_append]
        apply List.Nodup.append
        · exact List.Nodup.sublist
            (List.Sublist.map _ (List.filter_sublist _)) hnd
        · simp
        · intro x hx hx2
          simp only [List.map_cons, List.map_nil, List.mem_singleton] at hx2
          subst hx2
          obtain ⟨p, hp, rfl⟩ := List.mem_map.mp hx
          have hne := (List.mem_filter.mp hp).2
          simp at hne
      · intro p hp
        have husk : (stepState st (Act.connect u s)).userSockets =
            setSocket st.userSockets u s := rfl
        have hliv : (stepState st (Act.connect u s)).live =
            st.live ++ [(u, s)] := rfl
        rw [husk, setSocket, List.mem_append] at hp
        rw [hliv]
        rcases hp with hp | hp
        · exact List.mem_append_left _ (hsub p (List.mem_of_mem_filter hp))
        · simp only [List.mem_singleton] at hp
          subst hp
          exact List.mem_append_right _ (by simp)
  | disconnect u s =>
      have husk : (stepState st (Act.disconnect u s)).userSockets =
          if lookupSocket st.userSockets u = some s
          then delSocket st.userSockets u else st.userSockets := rfl
      have hliv : (stepState st (Act.disconnect u s)).live =
          st.live.filter (fun p => p ≠ (u, s)) := rfl
      constructor
      · rw [husk]
        by_cases hl : lookupSocket st.userSockets u = some s
        · rw [if_pos hl]
          exact List.Nodup.sublist
            (List.Sublist.map _ (List.filter_sublist _)) hnd
        · rw [if_neg hl]
          exact hnd
      · intro p hp
        rw [husk] at hp
        rw [hliv]
        by_cases hl : lookupSocket st.userSockets u = some s
        · rw [if_pos hl] at hp
          have hp1 := List.mem_of_mem_filter hp
          have hp2 := (List.mem_filter.mp hp).2
          simp only [decide_eq_true_eq] at hp2
          refine List.mem_filter.mpr ⟨hsub p hp1, ?_⟩
          simp only [decide_eq_true_eq]
          intro hh
          exact hp2 (by rw [hh])
        · rw [if_neg hl] at hp
          refine List.mem_filter.mpr ⟨hsub p hp, ?_⟩
          simp only [decide_eq_true_eq]
          intro hh
          subst hh
          exact hl (mem_lookup_of_nodup hnd hp)
  | join s r => exact ⟨hnd, hsub⟩

theorem usInv_run (tr : List Act) :
    ∀ st, UsInv st → UsInv (run st tr) := by
  induction tr with
  | nil => exact fun st h => h
  | cons a tr ih => exact fun st h => ih _ (usInv_step st a h)

/-- Claim C3 (amended): for a direct-message send, deliveredTo is set to the
singleton recipient exactly when the routing table has an entry for the
recipient at send time; the entry tracks only the most recently registered
connection, so whenever the recipient has no live connection at all the
entry is absent and deliveredTo is empty, but a recipient whose newest
connection disconnected while an older one is still live also gets an empty
deliveredTo.  The unamended claim fails in that last case. -/
theorem chatMessage_deliveredTo_amended (tr : List Act) (store : Store)
    (senderId : UserId) (newId : MessageId) (d : ChatData) (b : UserId)
    (hty : d.type = MsgType.direct) (hrec : d.recipient = some b)
    (hfresh : findMsg store newId = none) :
    (∀ rsid, lookupSocket (run initState tr).userSockets b = some rsid →
      ∃ m, findMsg (chatMessage (run initState tr) store senderId newId d).1
          newId = some m ∧ m.deliveredTo = [b]) ∧
    ((∀ s, (b, s) ∉ (run initState tr).live) →
      ∃ m, findMsg (chatMessage (run initState tr) store senderId newId d).1
          newId = some m ∧ m.deliveredTo = []) := by
  constructor
  · intro rsid hl
    have h1 : (chatMessage (run initState tr) store senderId newId d).1 =
        saveNew store newId
          { sender := senderId, content := d.content,
            type := MsgType.direct, recipient := some b,
            messageType := d.messageType.getD MsgKind.text,
            imageUrl := d.imageUrl, deliveredTo := [b] } := by
      simp [chatMessage, hty, hrec, hl]
    rw [h1]
    exact ⟨_, findMsg_saveNew_fresh _ hfresh, rfl⟩
  · intro hnl
    have hl : lookupSocket (run initState tr).userSockets b = none := by
      cases hcase : lookupSocket (run initState tr).userSockets b with
      | none => rfl
      | some t =>
          exact absurd
            ((usInv_run tr initState usInv_init).2 _ (lookupSocket_mem hcase))
            (hnl t)
    have h1 : (chatMessage (run initState tr) store senderId newId d).1 =
        saveNew store newId
          { sender := senderId, content := d.content,
            type := MsgType.direct, recipient := some b,
            messageType := d.messageType.getD MsgKind.text,
            imageUrl := d.imageUrl, deliveredTo := [] } := by
      simp [chatMessage, hty, hrec, hl]
    rw [h1]
    exact ⟨_, findMsg_saveNew_fresh _ hfresh, rfl⟩

/-- Witness for the C3 theorem: recipient user 0 is routed to its only live
socket 1, so deliveredTo on the persisted direct message is exactly the
recipient singleton. -/
theorem chatMessage_deliveredTo_amended_witness :
    (findMsg (chatMessage (run initState [Act.connect 0 1]) [] 7 100
        { type := MsgType.direct, roomId := 5, content := none,
          recipient := some 0 }).1 100).map (fun m => m.deliveredTo) =
      some [0] := by
  obtain ⟨m, h1, h2⟩ :=
    (chatMessage_deliveredTo_amended [Act.connect 0 1] [] 7 100
      { type := MsgType.direct, roomId := 5, content := none,
        recipient := some 0 } 0 rfl rfl rfl).1 1 (by decide)
  rw [h1]
  simp [h2]

/-- Claim C3 counterexample: recipient user 0 has a live connection
(socket 1) at send time, but its routing entry was deleted by the late
disconnect of a newer connection (socket 2), so the persisted direct
message's deliveredTo is empty instead of the recipient singleton. -/
theorem chatMessage_deliveredTo_cex :
    ((0 : UserId), (1 : SocketId)) ∈
      (run initState
        [Act.connect 0 1, Act.connect 0 2, Act.disconnect 0 2]).live ∧
    (findMsg (chatMessage
        (run initState [Act.connect 0 1, Act.connect 0 2, Act.disconnect 0 2])
        [] 7 100
        { type := MsgType.direct, roomId := 5, content := none,
          recipient := some 0 }).1 100).map (fun m => m.deliveredTo) =
      some [] := by
  decide

/-! ### Presence invariant under the single-connection discipline -/

/-- The presence invariant: the online set has no duplicates, each user has
at most one live connection, and online membership coincides with having a
live connection. -/
def PresInv (st : ServerState) : Prop :=
  st.onlineUsers.Nodup ∧
  (∀ u s t, (u, s) ∈ st.live → (u, t) ∈ st.live → s = t) ∧
  (∀ u, u ∈ st.onlineUsers ↔ ∃ s, (u, s) ∈ st.live)

theorem presInv_init : PresInv initState := by
  refine ⟨List.nodup_nil, ?_, ?_⟩ <;> simp [initState]

theorem presInv_step (st : ServerState) (a : Act) (hv : SingleAct st a)
    (h : PresInv st) : PresInv (stepState st a) := by
  obtain ⟨hnd, huniq, hiff⟩ := h
  cases a with
  | connect u s =>
      obtain ⟨hs, hu⟩ := hv
      have hu2 : u ∉ st.onlineUsers := by
        rw [hiff u]
        rintro ⟨t, ht⟩
        exact hu (List.mem_map.mpr ⟨(u, t), ht, rfl⟩)
      have hou : (stepState st (Act.connect u s)).onlineUsers =
          st.onlineUsers ++ [u] := by
        show setAdd st.onlineUsers u = _
        simp [setAdd, hu2]
      have hliv : (stepState st (Act.connect u s)).live =
          st.live ++ [(u, s)] := rfl
      refine ⟨?_, ?_, ?_⟩
      · rw [hou]
        apply List.Nodup.append hnd (by simp)
        intro x hx hxu
        simp only [List.mem_singleton] at hxu
        subst hxu
        exact hu2 hx
      · intro v s1 t1 h1 h2
        rw [hliv] at h1 h2
        rcases List.mem_append.mp h1 with h1 | h1 <;>
          rcases List.mem_append.mp h2 with h2 | h2
        · exact huniq v s1 t1 h1 h2
        · simp only [List.mem_singleton, Prod.mk.injEq] at h2
          exact absurd (List.mem_map.mpr ⟨(v, s1), h1, by rw [h2.1]⟩) hu
        · simp only [List.mem_singleton, Prod.mk.injEq] at h1
          exact absurd (List.mem_map.mpr ⟨(v, t1), h2, by rw [h1.1]⟩) hu
        · simp only [List.mem_singleton, Prod.mk.injEq] at h1 h2
          rw [h1.2, h2.2]
      · intro v
        rw [hou, hliv, List.mem_append, List.mem_singleton]
        constructor
        · rintro (hv1 | rfl)
          · obtain ⟨t, ht⟩ := (hiff v).mp hv1
            exact ⟨t, List.mem_append_left _ ht⟩
          · exact ⟨s, List.mem_append_right _ (by simp)⟩
        · rintro ⟨t, ht⟩
          rcases List.mem_append.mp ht with ht | ht
          · exact Or.inl ((hiff v).mpr ⟨t, ht⟩)
          · simp only [List.mem_singleton, Prod.mk.injEq] at ht
            exact Or.inr ht.1
  | disconnect u s =>
      have hou : (stepState st (Act.disconnect u s)).onlineUsers =
          st.onlineUsers.erase u := rfl
      have hliv : (stepState st (Act.disconnect u s)).live =
          st.live.filter (fun p => p ≠ (u, s)) := rfl
      refine ⟨?_, ?_, ?_⟩
      · rw [hou]
        exact hnd.erase u
      · intro v s1 t1 h1 h2
        rw [hliv] at h1 h2
        exact huniq v s1 t1 (List.mem_of_mem_filter h1)
          (List.mem_of_mem_filter h2)
      · intro v
        rw [hou, hliv]
        by_cases hvu : v = u
        · subst hvu
          constructor
          · intro hmem
            exact absurd hmem (hnd.not_mem_erase)
          · rintro ⟨t, ht⟩
            have h1 := List.mem_of_mem_filter ht
            have h2 := (List.mem_filter.mp ht).2
            simp only [decide_eq_true_eq] at h2
            exact absurd (by rw [huniq v t s h1 hv]) h2
        · rw [List.mem_erase_of_ne hvu, hiff v]
          constructor
          · rintro ⟨t, ht⟩
            refine ⟨t, List.mem_filter.mpr ⟨ht, ?_⟩⟩
            simp only [decide_eq_true_eq]
            intro hh
            exact hvu (congrArg Prod.fst hh)
          · rintro ⟨t, ht⟩
            exact ⟨t, List.mem_of_mem_filter ht⟩
  | join s r => exact ⟨hnd, huniq, hiff⟩

theorem presInv_run (tr : List Act) :
    ∀ st, PresInv st → SingleFrom st tr → PresInv (run st tr) := by
  induction tr with
  | nil => exact fun st h _ => h
  | cons a tr ih =>
      intro st h hv
      cases hv with
      | cons hva hvt => exact ih _ (presInv_step st a hva h) hvt

/-- Claim C5 (amended): under the single-connection discipline (each user
holds at most one live connection at a time) the presence invariant holds
after every trace of connect, disconnect and join actions: a user is online
exactly when it has a live connection, and the online set size equals the
number of distinct users with a live handle.  Without that discipline the
claim fails: a user with two live connections is marked offline (and the
offline event broadcast) as soon as either of them disconnects. -/
theorem presence_invariant_amended (tr : List Act)
    (h : SingleFrom initState tr) :
    (∀ u, u ∈ (run initState tr).onlineUsers ↔
      ∃ s, (u, s) ∈ (run initState tr).live) ∧
    (run initState tr).onlineUsers.length =
      ((run initState tr).live.map (fun p => p.1)).dedup.length := by
  obtain ⟨hnd, huniq, hiff⟩ := presInv_run tr initState presInv_init h
  refine ⟨hiff, ?_⟩
  have hperm : List.Perm (run initState tr).onlineUsers
      (((run initState tr).live.map (fun p => p.1)).dedup) := by
    rw [List.perm_ext_iff_of_nodup hnd (List.nodup_dedup _)]
    intro v
    rw [List.mem_dedup, List.mem_map, hiff v]
    constructor
    · rintro ⟨s, hs⟩
      exact ⟨(v, s), hs, rfl⟩
    · rintro ⟨⟨a, b⟩, hp, rfl⟩
      exact ⟨b, hp⟩
  exact hperm.length_eq

/-- Witness for the C5 theorem on the trace connect then disconnect of the
single connection of user 0. -/
theorem presence_invariant_amended_witness :
    (run initState [Act.connect 0 1, Act.disconnect 0 1]).onlineUsers.length =
      ((run initState [Act.connect 0 1, Act.disconnect 0 1]).live.map
        (fun p => p.1)).dedup.length :=
  (presence_invariant_amended [Act.connect 0 1, Act.disconnect 0 1]
    (SingleFrom.cons (by decide)
      (SingleFrom.cons (by decide) (SingleFrom.nil _)))).2

/-- Claim C5 counterexample: a valid trace in which user 0 opens two live
connections and then closes the first; the user still has the live
connection socket 2 but the online set is empty, and the offline userStatus
event was broadcast. -/
theorem presence_invariant_cex :
    ValidFrom initState
      [Act.connect 0 1, Act.connect 0 2, Act.disconnect 0 1] ∧
    (run initState
      [Act.connect 0 1, Act.connect 0 2, Act.disconnect 0 1]).onlineUsers =
      [] ∧
    ((0 : UserId), (2 : SocketId)) ∈
      (run initState
        [Act.connect 0 1, Act.connect 0 2, Act.disconnect 0 1]).live ∧
    ⟨Target.all, Event.userStatus 0 false⟩ ∈
      (disconnect (run initState [Act.connect 0 1, Act.connect 0 2]) 0 1).2 := by
  refine ⟨?_, by decide, by decide, by decide⟩
  exact ValidFrom.cons (by decide) (ValidFrom.cons (by decide)
    (ValidFrom.cons (by decide) (ValidFrom.nil _)))

end Chatapp
